import Mathlib

/-!
Verification of the NancyAPIDebugger diagnostic engine
(`src/nancywebdebug/src/main.rs` and `src/nancywebdebug/src/request.rs`).

The Rust code is shallowly embedded: pure string manipulation is modelled on
`List Char` / `String`, and every network interaction (URL parsing by the
`reqwest` library, DNS resolution, TCP connect, socket write/read, HTTP client
construction and execution) is modelled by an explicit environment value that
records the outcome the outside world would produce.  `sendRequest` then
becomes a pure function of the request inputs and that environment, together
with a ghost log (`RunLog`) of the observable actions it performed.
-/

set_option linter.unusedVariables false

namespace Nancy

/-! ## URL normalizer (main.rs, `App::send_request`, lines 77-85)

```rust
if request_url.is_empty() { return Err("URL is empty".into()); }
if request_url.contains("localhost") {
    request_url = request_url.replace("localhost", "127.0.0.1");
}
if !request_url.starts_with("http") {
    request_url = format!("http://{}", request_url);
}
```
Strings are modelled as `List Char`. -/

/-- The literal substring `"localhost"`. -/
def lhost : List Char := ['l', 'o', 'c', 'a', 'l', 'h', 'o', 's', 't']

/-- The replacement string `"127.0.0.1"`. -/
def loopback : List Char := ['1', '2', '7', '.', '0', '.', '0', '.', '1']

/-- The prefix tested by `starts_with("http")`. -/
def httpPfx : List Char := ['h', 't', 't', 'p']

/-- The prepended scheme `"http://"`. -/
def httpScheme : List Char := ['h', 't', 't', 'p', ':', '/', '/']

/-- Rust `str::contains("localhost")`: some position of the string starts
with the pattern. -/
def containsLH : List Char → Bool
  | [] => false
  | c :: cs => lhost.isPrefixOf (c :: cs) || containsLH cs

/-- Worker for `str::replace("localhost", "127.0.0.1")`: scan left to right;
at each position, if the pattern starts here, emit the replacement and resume
after the match, otherwise keep the character.  The `Nat` argument is
recursion fuel (one unit per scanned position); it is always called with
fuel ≥ length, so the fuel-exhausted arm is never reached. -/
def replaceGo : Nat → List Char → List Char
  | _, [] => []
  | 0, c :: cs => c :: cs
  | n + 1, c :: cs =>
    if lhost.isPrefixOf (c :: cs) then loopback ++ replaceGo n ((c :: cs).drop 9)
    else c :: replaceGo n cs

/-- Rust `str::replace("localhost", "127.0.0.1")`: leftmost-first,
non-overlapping replacement of every occurrence. -/
def replaceLH (s : List Char) : List Char := replaceGo s.length s

/-- Result of the inline normalization fragment (an `Err` return aborts
`App::send_request`). -/
inductive NormResult
  | err (msg : String)
  | ok (url : List Char)
deriving DecidableEq

/-- The `localhost` rewriting step (rule 2), exactly as guarded in the source. -/
def localhostStep (s : List Char) : List Char :=
  if containsLH s then replaceLH s else s

/-- The whole normalization fragment of `App::send_request` (rules 1-3 in
source order). -/
def normalizeUrl (s : List Char) : NormResult :=
  if s.isEmpty then .err "URL is empty"
  else
    let s1 := localhostStep s
    let s2 := if httpPfx.isPrefixOf s1 then s1 else httpScheme ++ s1
    .ok s2

/-! ### Normalizer lemmas -/

theorem isPrefixOf_exists {p s : List Char} (h : p.isPrefixOf s = true) :
    ∃ t, s = p ++ t := by
  induction p generalizing s with
  | nil => exact ⟨s, rfl⟩
  | cons a as ih =>
    cases s with
    | nil => simp [List.isPrefixOf] at h
    | cons b bs =>
      simp only [List.isPrefixOf, Bool.and_eq_true, beq_iff_eq] at h
      obtain ⟨t, ht⟩ := ih h.2
      exact ⟨t, by simp [h.1, ht]⟩

theorem isPrefixOf_append_self (p t : List Char) : p.isPrefixOf (p ++ t) = true := by
  induction p with
  | nil => cases t <;> rfl
  | cons a as ih =>
    simp only [List.cons_append, List.isPrefixOf, Bool.and_eq_true, beq_iff_eq]
    exact ⟨trivial, ih⟩

theorem replaceGo_succ (n : Nat) (c : Char) (cs : List Char) :
    replaceGo (n + 1) (c :: cs) =
      if lhost.isPrefixOf (c :: cs) then loopback ++ replaceGo n ((c :: cs).drop 9)
      else c :: replaceGo n cs := rfl

theorem replaceGo_nil (n : Nat) : replaceGo n [] = [] := by
  cases n <;> rfl

/-- The fuel argument is irrelevant as long as it bounds the length. -/
theorem replaceGo_congr :
    ∀ n m (s : List Char), s.length ≤ n → s.length ≤ m → replaceGo n s = replaceGo m s := by
  intro n
  induction n with
  | zero =>
    intro m s hn hm
    cases s with
    | nil => simp [replaceGo_nil]
    | cons c cs => simp at hn
  | succ n ih =>
    intro m s hn hm
    cases s with
    | nil => simp [replaceGo_nil]
    | cons c cs =>
      cases m with
      | zero => simp at hm
      | succ m =>
        rw [replaceGo_succ, replaceGo_succ]
        by_cases hp : lhost.isPrefixOf (c :: cs) = true
        · rw [if_pos hp, if_pos hp]
          have h1 : ((c :: cs).drop 9).length ≤ n := by
            rw [List.length_drop]
            simp only [List.length_cons] at hn ⊢
            omega
          have h2 : ((c :: cs).drop 9).length ≤ m := by
            rw [List.length_drop]
            simp only [List.length_cons] at hm ⊢
            omega
          rw [ih m ((c :: cs).drop 9) h1 h2]
        · rw [if_neg hp, if_neg hp]
          have h1 : cs.length ≤ n := by simp only [List.length_cons] at hn; omega
          have h2 : cs.length ≤ m := by simp only [List.length_cons] at hm; omega
          rw [ih m cs h1 h2]

/-- Unfolding `replaceLH` at a position where the pattern matches. -/
theorem replaceLH_pos (t : List Char) :
    replaceLH (lhost ++ t) = loopback ++ replaceLH t := by
  have hcond : lhost.isPrefixOf ('l' :: 'o' :: 'c' :: 'a' :: 'l' :: 'h' :: 'o' :: 's' :: 't' :: t) = true := by
    cases t <;> rfl
  have h1 : ∀ k, replaceGo (k + 1) (lhost ++ t) = loopback ++ replaceGo k t := by
    intro k
    have h := replaceGo_succ k 'l' ('o' :: 'c' :: 'a' :: 'l' :: 'h' :: 'o' :: 's' :: 't' :: t)
    rw [if_pos hcond] at h
    exact h
  have hlen : (lhost ++ t).length = t.length + 8 + 1 := by
    simp only [lhost, List.cons_append, List.nil_append, List.length_cons]
  unfold replaceLH
  rw [hlen, h1 (t.length + 8),
    replaceGo_congr (t.length + 8) t.length t (by omega) le_rfl]

/-- Unfolding `replaceLH` at a position where the pattern does not match. -/
theorem replaceLH_neg (c : Char) (cs : List Char)
    (h : lhost.isPrefixOf (c :: cs) = false) :
    replaceLH (c :: cs) = c :: replaceLH cs := by
  have h' : ¬ lhost.isPrefixOf (c :: cs) = true := by simp [h]
  unfold replaceLH
  rw [show (c :: cs).length = cs.length + 1 from rfl, replaceGo_succ, if_neg h']

/-- If a string `q` that shares no character with the replacement
`"127.0.0.1"` is a prefix of `replaceLH s`, it was already a prefix of `s`. -/
theorem isPrefixOf_replaceLH {q : List Char}
    (hq : ∀ c ∈ q, c ∉ loopback) :
    ∀ n s, List.length s ≤ n → q.isPrefixOf (replaceLH s) = true → q.isPrefixOf s = true := by
  intro n
  induction n generalizing q with
  | zero =>
    intro s hs h
    cases s with
    | nil => exact h
    | cons c cs => simp at hs
  | succ n ih =>
    intro s hs h
    cases s with
    | nil => exact h
    | cons c cs =>
      cases hp : lhost.isPrefixOf (c :: cs) with
      | true =>
        obtain ⟨t, ht⟩ := isPrefixOf_exists hp
        rw [ht, replaceLH_pos] at h
        cases q with
        | nil => rfl
        | cons a as =>
          exfalso
          have ha : a ∉ loopback := hq a (List.mem_cons_self a as)
          have hred : loopback ++ replaceLH t =
              '1' :: ('2' :: '7' :: '.' :: '0' :: '.' :: '0' :: '.' :: '1' :: replaceLH t) := rfl
          rw [hred] at h
          simp only [List.isPrefixOf, Bool.and_eq_true, beq_iff_eq] at h
          exact ha (h.1 ▸ by decide)
      | false =>
        rw [replaceLH_neg c cs hp] at h
        cases q with
        | nil => rfl
        | cons a as =>
          simp only [List.isPrefixOf, Bool.and_eq_true, beq_iff_eq] at h ⊢
          refine ⟨h.1, ?_⟩
          have has : ∀ c ∈ as, c ∉ loopback := fun c hc => hq c (List.mem_cons_of_mem _ hc)
          have hlen : cs.length ≤ n := by
            simp only [List.length_cons] at hs
            omega
          exact ih has cs hlen h.2

theorem containsLH_loopback_append (t : List Char) :
    containsLH (loopback ++ t) = containsLH t := rfl

theorem containsLH_httpScheme_append (t : List Char) :
    containsLH (httpScheme ++ t) = containsLH t := rfl

/-- After `replace("localhost", "127.0.0.1")` no occurrence of `"localhost"`
remains: every occurrence is substituted. -/
theorem containsLH_replaceLH (s : List Char) : containsLH (replaceLH s) = false := by
  have main : ∀ n s, List.length s ≤ n → containsLH (replaceLH s) = false := by
    intro n
    induction n with
    | zero =>
      intro s hs
      cases s with
      | nil => rfl
      | cons c cs => simp at hs
    | succ n ih =>
      intro s hs
      cases s with
      | nil => rfl
      | cons c cs =>
        cases hp : lhost.isPrefixOf (c :: cs) with
        | true =>
          obtain ⟨t, ht⟩ := isPrefixOf_exists hp
          rw [ht, replaceLH_pos, containsLH_loopback_append]
          have hlen : t.length ≤ n := by
            have hl := congrArg List.length ht
            rw [List.length_append] at hl
            rw [show lhost.length = 9 from rfl] at hl
            simp only [List.length_cons] at hl hs
            omega
          exact ih t hlen
        | false =>
          rw [replaceLH_neg c cs hp]
          have htail : containsLH (replaceLH cs) = false := by
            have hlen : cs.length ≤ n := by
              simp only [List.length_cons] at hs
              omega
            exact ih cs hlen
          have hhead : lhost.isPrefixOf (c :: replaceLH cs) = false := by
            cases hcon : lhost.isPrefixOf (c :: replaceLH cs) with
            | false => rfl
            | true =>
              exfalso
              rw [← replaceLH_neg c cs hp] at hcon
              have := isPrefixOf_replaceLH (q := lhost) (by decide)
                (c :: cs).length (c :: cs) le_rfl hcon
              rw [this] at hp
              cases hp
          simp [containsLH, hhead, htail]
  exact main s.length s le_rfl

theorem httpPfx_localhostStep {s : List Char}
    (h : httpPfx.isPrefixOf s = false) :
    httpPfx.isPrefixOf (localhostStep s) = false := by
  unfold localhostStep
  split
  · cases hcon : httpPfx.isPrefixOf (replaceLH s) with
    | false => rfl
    | true =>
      exfalso
      have := isPrefixOf_replaceLH (q := httpPfx) (by decide) s.length s le_rfl hcon
      rw [this] at h
      cases h
  · exact h

theorem containsLH_localhostStep (s : List Char) : containsLH (localhostStep s) = false := by
  unfold localhostStep
  split
  · exact containsLH_replaceLH s
  · rename_i h
    simpa using h

theorem httpPfx_isPrefixOf_httpScheme_append (t : List Char) :
    httpPfx.isPrefixOf (httpScheme ++ t) = true := rfl

theorem normalizeUrl_eq (s : List Char) (hs : s ≠ []) :
    normalizeUrl s = .ok
      (if httpPfx.isPrefixOf (localhostStep s) then localhostStep s
       else httpScheme ++ localhostStep s) := by
  unfold normalizeUrl
  rw [if_neg (by simp [hs])]

theorem normalizeUrl_ok_shape {s t : List Char} (h : normalizeUrl s = .ok t) :
    containsLH t = false ∧ httpPfx.isPrefixOf t = true := by
  cases s with
  | nil => simp [normalizeUrl] at h
  | cons c cs =>
    rw [normalizeUrl_eq (c :: cs) (by simp)] at h
    injection h with h
    subst h
    split
    · rename_i hcond
      exact ⟨containsLH_localhostStep _, hcond⟩
    · exact ⟨by rw [containsLH_httpScheme_append]; exact containsLH_localhostStep _,
        httpPfx_isPrefixOf_httpScheme_append _⟩

/-- C6: The URL normalizer of `App::send_request` applies exactly three rules
in order: (1) it fails with the empty-input error `"URL is empty"` iff the
input string is blank (empty); (2) it textually substitutes every occurrence
of the literal substring `localhost` with `127.0.0.1` (the normalized output
contains no occurrence of `localhost` any more); (3) it prepends `http://` to
the substituted string iff that string does not already begin with `http`, so
every normalized output begins with an HTTP scheme prefix. -/
theorem urlNormalizerRules (s : List Char) :
    (normalizeUrl s = .err "URL is empty" ↔ s = []) ∧
    (s ≠ [] → normalizeUrl s = .ok
        (if httpPfx.isPrefixOf (localhostStep s) then localhostStep s
         else httpScheme ++ localhostStep s)) ∧
    (∀ t, normalizeUrl s = .ok t →
        containsLH t = false ∧ httpPfx.isPrefixOf t = true) := by
  refine ⟨?_, fun hs => normalizeUrl_eq s hs, fun t ht => normalizeUrl_ok_shape ht⟩
  cases s with
  | nil => simp [normalizeUrl]
  | cons c cs =>
    rw [normalizeUrl_eq (c :: cs) (by simp)]
    simp

/-- Witness for C6 at the concrete input `"localhost"`. -/
theorem urlNormalizerRules_w :
    (['l', 'o', 'c', 'a', 'l', 'h', 'o', 's', 't'] : List Char) ≠ [] ∧
    normalizeUrl ['l', 'o', 'c', 'a', 'l', 'h', 'o', 's', 't'] = .ok
      (if httpPfx.isPrefixOf (localhostStep ['l', 'o', 'c', 'a', 'l', 'h', 'o', 's', 't'])
       then localhostStep ['l', 'o', 'c', 'a', 'l', 'h', 'o', 's', 't']
       else httpScheme ++ localhostStep ['l', 'o', 'c', 'a', 'l', 'h', 'o', 's', 't']) :=
  ⟨by decide, (urlNormalizerRules ['l', 'o', 'c', 'a', 'l', 'h', 'o', 's', 't']).2.1 (by decide)⟩

/-- C7: For every input lacking the `http` scheme prefix the normalizer
prepends `http://` exactly once (the part after the single prepended scheme
still lacks the prefix, so no second copy is ever added), and normalization
is idempotent: normalizing an already-normalized URL returns it unchanged. -/
theorem urlNormalizerIdem :
    (∀ s : List Char, s ≠ [] → httpPfx.isPrefixOf s = false →
        normalizeUrl s = .ok (httpScheme ++ localhostStep s) ∧
        httpPfx.isPrefixOf (localhostStep s) = false) ∧
    (∀ s t : List Char, normalizeUrl s = .ok t → normalizeUrl t = .ok t) := by
  constructor
  · intro s hs hpfx
    have hstep : httpPfx.isPrefixOf (localhostStep s) = false := httpPfx_localhostStep hpfx
    refine ⟨?_, hstep⟩
    rw [normalizeUrl_eq s hs, if_neg (by simp [hstep])]
  · intro s t h
    obtain ⟨hcontains, hpfx⟩ := normalizeUrl_ok_shape h
    obtain ⟨r, hr⟩ := isPrefixOf_exists hpfx
    have ht : t ≠ [] := by rw [hr]; simp [httpPfx]
    rw [normalizeUrl_eq t ht]
    have hstep : localhostStep t = t := by unfold localhostStep; rw [hcontains]; rfl
    rw [hstep, if_pos hpfx]

/-- Witness for C7 at the concrete inputs `"a"` and its normalization
`"http://a"`. -/
theorem urlNormalizerIdem_w :
    normalizeUrl ['a'] = .ok (httpScheme ++ localhostStep ['a']) ∧
    httpPfx.isPrefixOf (localhostStep ['a']) = false ∧
    normalizeUrl (httpScheme ++ localhostStep ['a']) = .ok (httpScheme ++ localhostStep ['a']) := by
  have h1 := urlNormalizerIdem.1 ['a'] (by decide) (by decide)
  have h2 := urlNormalizerIdem.2 ['a'] (httpScheme ++ localhostStep ['a']) h1.1
  exact ⟨h1.1, h1.2, h2⟩

/-! ## The diagnosis engine (request.rs, `send_request`)

Network effects are supplied by an environment value.  Each `String` carried
by an environment constructor is the `Display` text of the corresponding Rust
error value. -/

/-- The closed method set accepted by `send_request` (request.rs 12-19). -/
inductive Method
  | GET | POST | PUT | PATCH | DELETE
deriving DecidableEq

/-- The `match request_type.as_str()` at the top of `send_request`. -/
def parseMethod : String → Option Method
  | "GET" => some .GET
  | "POST" => some .POST
  | "PUT" => some .PUT
  | "PATCH" => some .PATCH
  | "DELETE" => some .DELETE
  | _ => none

/-- Outcome of a fallible external action (TCP connect, socket write, client
construction, request build). -/
inductive NetAct
  | ok
  | err (msg : String)
deriving DecidableEq

/-- What `reqwest::Url::parse` would yield: scheme, `host_str()` and
`port()` of the parsed URL.  `none` models a parse error. -/
structure Url where
  scheme : String
  host : Option String
  port : Option Nat
deriving DecidableEq

/-- Rust `url.port().unwrap_or(if url.scheme() == "https" then 443 else 80)` (request.rs 26). -/
def Url.effPort (u : Url) : Nat :=
  u.port.getD (if u.scheme == "https" then 443 else 80)

/-- Environment for `test_dns` (request.rs 222-268): whether
`"{host}:{port}"` parses as a literal `SocketAddr`, and the outcomes of
resolution and of the 5-second `connect_timeout`. -/
inductive DnsEnv
  | literal (connect : NetAct)
  | resolved (addr : String) (connect : NetAct)
  | noAddrs
  | resolveFailed (msg : String)
deriving DecidableEq

/-- Result of `test_dns`: `Ok(addr)` or `Err((error, tracebuilder))`. -/
inductive DnsResult
  | ok (addr : String)
  | err (msg : String) (trace : String)
deriving DecidableEq

/-- Function `test_dns(host, port)` (request.rs 222-268).  On success the local
tracebuilder is discarded (only `addr` is returned); on failure the pair
(error display text, local tracebuilder) is returned. -/
def testDns (host : String) (port : Nat) (env : DnsEnv) : DnsResult :=
  let addr := host ++ ":" ++ toString port
  match env with
  | .literal .ok => .ok addr
  | .literal (.err e) => .err e ("DNS Resolution Failed: " ++ e ++ "\n")
  | .resolved a .ok => .ok a
  | .resolved a (.err e) =>
      .err e ("Resolved " ++ addr ++ " to " ++ a ++ "\n" ++ "TCP Connection Failed: " ++ e ++ "\n")
  | .noAddrs => .err ("No addresses resolved: " ++ addr) "No addresses resolved\n"
  | .resolveFailed e => .err e ("DNS resolution failed: " ++ e ++ "\n")

/-- Outcome of the sniff `stream.read` under the 3-second timeout:
`data recv` is `Ok(Ok(n))` where `recv` holds the `n` received bytes
(the 1024-byte buffer is zero-initialized), `readErr` is `Ok(Err(e))`,
`timeout` is `Err(_)` of `tokio::time::timeout`. -/
inductive SniffRead
  | data (recv : List Nat)
  | readErr (msg : String)
  | timeout
deriving DecidableEq

/-- The zero-initialized 1024-byte read buffer after the read: received
bytes followed by the untouched zero padding. -/
def buffer1024 (recv : List Nat) : List Nat :=
  recv.take 1024 ++ List.replicate (1024 - recv.length) 0

/-- Classification of the sniffed bytes (request.rs 66-82 and 95-111). -/
inductive SniffClass
  | tlsHandshake
  | plainHttp (preview : List Nat)
  | unrecognized (preview : List Nat)
  | connectionClosed
  | readError (msg : String)
  | readTimeout
deriving DecidableEq

/-- The classification decision applied to a read outcome.  `plainLen` is the
length of the decoded preview slice (`buffer[..100]` on the https branch, the
whole buffer on the http branch). -/
def classifyRead (plainLen : Nat) (r : SniffRead) : SniffClass :=
  match r with
  | .data recv =>
    if 1 ≤ recv.length then
      let buf := buffer1024 recv
      if buf.headD 0 == 0x16 then .tlsHandshake
      else if buf.take 4 == [0x48, 0x54, 0x54, 0x50] then .plainHttp (buf.take plainLen)
      else .unrecognized (buf.take 20)
    else .connectionClosed
  | .readErr e => .readError e
  | .timeout => .readTimeout

/-- ASCII-level stand-in for `String::from_utf8_lossy` (the exact decoding of
non-ASCII bytes is irrelevant to every claim: the preview text is only ever
embedded in the trace). -/
def lossyDecode (bytes : List Nat) : String :=
  String.mk (bytes.map (fun b => if b < 128 then Char.ofNat b else '?'))

def hexDigit (n : Nat) : Char :=
  if n < 10 then Char.ofNat (48 + n) else Char.ofNat (87 + n)

def hexByte (b : Nat) : String :=
  String.mk [hexDigit (b / 16 % 16), hexDigit (b % 16)]

/-- Stand-in for the `{:02x?}` debug rendering of a byte slice. -/
def hexDump (bytes : List Nat) : String :=
  "[" ++ String.intercalate ", " (bytes.map hexByte) ++ "]"

/-- Trace message of the sniff read on the https branch (request.rs 66-82). -/
def sniffMsgHttps (r : SniffRead) : String :=
  match classifyRead 100 r with
  | .tlsHandshake => "Server responded with TLS handshake\n"
  | .plainHttp p => "Server responded with HTTP: " ++ lossyDecode p ++ "\n"
  | .unrecognized p => "Server responded with unknown data: " ++ hexDump p ++ "\n"
  | .connectionClosed => "Server closed connection immediately\n"
  | .readError e => "Read error: " ++ e ++ "\n"
  | .readTimeout => "Server didn't respond within timeout\n"

/-- Trace message of the sniff read on the http branch (request.rs 95-111). -/
def sniffMsgHttp (r : SniffRead) : String :=
  match classifyRead 1024 r with
  | .tlsHandshake => "Server sent TLS handshake on HTTP port\n"
  | .plainHttp p => "Normal HTTP response: \n\n" ++ lossyDecode p ++ "\n"
  | .unrecognized p => "Unknown response: " ++ hexDump p ++ "\n"
  | .connectionClosed => "Server closed connection\n"
  | .readError e => "Read error: " ++ e ++ "\n"
  | .readTimeout => "No response within timeout\n"

/-- Outcome of `response.text().await`: the body string, or the error display
text plus the `format!("{:?}", e.status())` rendering. -/
inductive BodyRead
  | ok (body : String)
  | err (msg : String) (statusDbg : String)
deriving DecidableEq

/-- Outcome of `client.execute(req).await`: a response (status code,
canonical reason, headers in receipt order, and the body-read outcome) or a
`reqwest::Error` with its category flags, optional status and source chain. -/
inductive ExecOutcome
  | ok (status : Nat) (reason : String) (headers : List (String × String)) (bodyRead : BodyRead)
  | err (msg : String) (isTimeout isConnect isRequest : Bool) (statusCode : Option Nat)
      (chain : List String)
deriving DecidableEq

/-- Environment for one client strategy: outcomes of `Client::builder().build()`,
`client.request(..).build()` and `client.execute(..)`. -/
structure StratEnv where
  create : NetAct
  build : NetAct
  exec : ExecOutcome
deriving DecidableEq

def chainLines : Nat → List String → String
  | _, [] => ""
  | lvl, e :: rest => "    Level " ++ toString lvl ++ ": " ++ e ++ "\n" ++ chainLines (lvl + 1) rest

/-- Function `print_error_details` (request.rs 196-220). -/
def printErrorDetails (msg : String) (isTimeout isConnect isRequest : Bool)
    (statusCode : Option Nat) (chain : List String) : String :=
  "  Error details:\n" ++
  "    Main error: " ++ msg ++ "\n" ++
  "    Timeout: " ++ toString isTimeout ++ "\n" ++
  "    Connection Error: " ++ toString isConnect ++ "\n" ++
  "    Request Error: " ++ toString isRequest ++ "\n" ++
  (match statusCode with
   | some st => "    Status: Code " ++ toString st ++ "\n"
   | none => "    Status Code: None\n") ++
  chainLines 0 chain

/-- The value of `send_request`:
`Ok((status, headers, body))` or `Err((error, status, headers, tracebuilder))`. -/
inductive SendResult
  | ok (status : String) (headers : List String) (body : String)
  | err (msg : String) (status : String) (headers : List String) (trace : String)
deriving DecidableEq

/-- A `SendResult` with the trace blanked: what a result looks like ignoring
the accumulated narrative. -/
def SendResult.core : SendResult → SendResult
  | .ok s h b => .ok s h b
  | .err m s h _ => .err m s h ""

/-- Status rendering (request.rs 145-150): bare code for 200, code plus
canonical reason otherwise. -/
def renderStatus (st : Nat) (reason : String) : String :=
  if st == 200 then toString st else toString st ++ " " ++ reason

/-- Header rendering (request.rs 151-153): `Name: Value` lines in receipt
order. -/
def renderHeaders (hs : List (String × String)) : List String :=
  hs.map (fun p => p.1 ++ ": " ++ p.2)

/-- Ghost record of one pass over the strategy loop: which strategies had
their iteration started (`tried`), which had a request successfully built
(`built`, with the method and URL given to `client.request`), which had
`client.execute` invoked (`executed`), and the final value. -/
structure LoopOut where
  tried : List String
  built : List (String × Method × String)
  executed : List String
  result : SendResult
deriving DecidableEq

/-- The strategy loop of `send_request` (request.rs 122-169), over an
explicit list of (strategy name, strategy environment) pairs, threading the
tracebuilder. -/
def tryStrategies (requestType requestUrl : String) (m : Method) :
    List (String × StratEnv) → String → LoopOut
  | [], trace => ⟨[], [], [], .err "All Attempts Failed" "Failed" [] trace⟩
  | (name, se) :: rest, trace =>
    let trace := trace ++ "\nTrying " ++ name ++ "...\n"
    match se.create with
    | .err e =>
      let out := tryStrategies requestType requestUrl m rest
        (trace ++ "Failed to create " ++ name ++ ": " ++ e ++ "\n")
      ⟨name :: out.tried, out.built, out.executed, out.result⟩
    | .ok =>
      match se.build with
      | .err e =>
        let out := tryStrategies requestType requestUrl m rest
          (trace ++ "Failed to build request with " ++ name ++ ": " ++ e ++ "\n")
        ⟨name :: out.tried, out.built, out.executed, out.result⟩
      | .ok =>
        let trace := trace ++ "Sending " ++ requestType ++ " request to: " ++ requestUrl ++
          " with " ++ name ++ "\n"
        match se.exec with
        | .ok st reason hs bodyRead =>
          let trace := trace ++ "Success with " ++ name ++ "!\n"
          match bodyRead with
          | .ok body =>
            ⟨[name], [(name, m, requestUrl)], [name],
              .ok (renderStatus st reason) (renderHeaders hs) body⟩
          | .err msg stDbg =>
            ⟨[name], [(name, m, requestUrl)], [name],
              .err ("Unable to read response body: " ++ msg) stDbg (renderHeaders hs) trace⟩
        | .err msg tmo conn reqe stc chain =>
          let trace := trace ++ "Failed with " ++ name ++ ": " ++ msg ++ "\n" ++
            printErrorDetails msg tmo conn reqe stc chain
          let out := tryStrategies requestType requestUrl m rest trace
          ⟨name :: out.tried, (name, m, requestUrl) :: out.built, name :: out.executed, out.result⟩

/-- Environment for the sniff phase: outcomes of `TokioTcpStream::connect`,
`stream.write_all` and the timed read. -/
structure SniffEnv where
  connect : NetAct
  wr : NetAct
  readRes : SniffRead
deriving DecidableEq

/-- The whole outside world of one `send_request` call. -/
structure Env where
  urlParse : Option Url
  dns : DnsEnv
  sniff : SniffEnv
  standard : StratEnv
  permissive : StratEnv
  legacyTls : StratEnv
deriving DecidableEq

/-- The `clients_to_try` vector (request.rs 116-120): the fixed, ordered strategy list. -/
def Env.strategies (env : Env) : List (String × StratEnv) :=
  [("Standard", env.standard), ("Permissive", env.permissive), ("Legacy TLS", env.legacyTls)]

/-- Ghost log of one `send_request` call: whether `test_dns` ran, whether the
sniff connection was opened, the exact probe bytes written to the sniff
socket (if any), and the strategy-loop observables. -/
structure RunLog where
  dnsProbed : Bool
  sniffConnected : Bool
  probeSent : Option String
  tried : List String
  built : List (String × Method × String)
  executed : List String
  result : SendResult
deriving DecidableEq

/-- An early `return Err(...)` before the strategy loop. -/
def earlyErr (dnsProbed sniffConnected : Bool) (probeSent : Option String)
    (r : SendResult) : RunLog :=
  ⟨dnsProbed, sniffConnected, probeSent, [], [], [], r⟩

/-- Falling through to the strategy loop. -/
def runLoop (env : Env) (requestType requestUrl : String) (m : Method)
    (dnsProbed sniffConnected : Bool) (probeSent : Option String) (trace : String) : RunLog :=
  let out := tryStrategies requestType requestUrl m env.strategies trace
  ⟨dnsProbed, sniffConnected, probeSent, out.tried, out.built, out.executed, out.result⟩

/-- The "URL Analysis" trace section (request.rs 28). -/
def urlAnalysisTrace (host : String) (port : Nat) (scheme : String) : String :=
  "URL Analysis:\n  Host: " ++ host ++ "\n  Port: " ++ toString port ++
    "\n  Scheme: " ++ scheme ++ "\n\n"

/-- The literal probe request written to the sniff socket (request.rs 57 for
https targets, request.rs 85 for http targets; only the https probe embeds
the caller-supplied header string). -/
def sniffProbe (scheme host requestHeaders : String) : String :=
  if scheme == "https" then
    "GET / HTTP/1.1\r\nHost: " ++ host ++ "\r\n" ++ requestHeaders ++ "\r\n\r\n"
  else
    "GET / HTTP/1.1\r\nHost: " ++ host ++ "\r\nConnection: close\r\n\r\n"

/-- The sniff-read trace message for the branch taken (the two source
branches differ only in wording). -/
def sniffMsg (scheme : String) (r : SniffRead) : String :=
  if scheme == "https" then sniffMsgHttps r else sniffMsgHttp r

/-- Function `send_request` (request.rs 11-170) as a pure function of the inputs and
the environment.  Mirrors the source control flow: method validation, URL
parse (a parse failure or a URL without a host silently skips probe and
sniff), `test_dns` (failure returns early), sniff connect and write (failure
returns early), sniff read (classification appended to the trace), then the
strategy loop. -/
def sendRequest (requestType requestUrl requestHeaders requestBody : String)
    (env : Env) : RunLog :=
  match parseMethod requestType with
  | none => earlyErr false false none (.err "Invalid request type" "" [] "")
  | some m =>
    match env.urlParse with
    | none => runLoop env requestType requestUrl m false false none ""
    | some url =>
      match url.host with
      | none => runLoop env requestType requestUrl m false false none ""
      | some host =>
        let port := url.effPort
        let trace := urlAnalysisTrace host port url.scheme
        match testDns host port env.dns with
        | .err e0 e1 =>
          earlyErr true false none
            (.err ("Cannot establish TCP connection to " ++ host ++ ":" ++ toString port)
              "DNS Resolution Failed" [] (trace ++ e0 ++ "\n" ++ e1))
        | .ok d =>
          let trace := trace ++ "Resolved DNS to: " ++ d ++ "\n" ++ "Testing server response...\n"
          let addr := host ++ ":" ++ toString port
          match env.sniff.connect with
          | .err e =>
            earlyErr true false none
              (.err ("Failed to connect to " ++ addr ++ ": " ++ e) "Connection Failed" []
                (trace ++ "Failed to connect to " ++ addr ++ ": " ++ e ++ "\n"))
          | .ok =>
            let probe := sniffProbe url.scheme host requestHeaders
            match env.sniff.wr with
            | .err e =>
              earlyErr true true (some probe)
                (.err ("Failed to write request to " ++ addr ++ ": " ++ e) "Write Failed" []
                  (trace ++ "Failed to write request to " ++ addr ++ ": " ++ e ++ "\n"))
            | .ok =>
              runLoop env requestType requestUrl m true true (some probe)
                (trace ++ sniffMsg url.scheme env.sniff.readRes)

/-! ### String helpers -/

theorem str_eq_empty_of_length {s : String} (h : s.length = 0) : s = "" := by
  cases s with
  | mk data =>
    rw [String.length] at h
    simp at h
    simp [h]

theorem str_append_ne_left (a b : String) (h : a ≠ "") : a ++ b ≠ "" := by
  intro hc
  apply h
  apply str_eq_empty_of_length
  have hl := congrArg String.length hc
  rw [String.length_append] at hl
  have h0 : ("" : String).length = 0 := rfl
  rw [h0] at hl
  omega

theorem str_append_ne_right (a b : String) (h : b ≠ "") : a ++ b ≠ "" := by
  intro hc
  apply h
  apply str_eq_empty_of_length
  have hl := congrArg String.length hc
  rw [String.length_append] at hl
  have h0 : ("" : String).length = 0 := rfl
  rw [h0] at hl
  omega

/-! ### Strategy-loop lemmas -/

/-- Whatever the outcomes, `client.execute` is invoked on a subsequence of
the strategy list, in list order. -/
theorem tryStrategies_executed_sublist (rt ru : String) (m : Method) :
    ∀ (l : List (String × StratEnv)) (t : String),
      (tryStrategies rt ru m l t).executed.Sublist (l.map Prod.fst) := by
  intro l
  induction l with
  | nil => intro t; simp [tryStrategies]
  | cons p rest ih =>
    intro t
    obtain ⟨name, cr, bd, ex⟩ := p
    cases cr with
    | err e => simpa [tryStrategies] using List.Sublist.cons name (ih _)
    | ok =>
      cases bd with
      | err e => simpa [tryStrategies] using List.Sublist.cons name (ih _)
      | ok =>
        cases ex with
        | ok st reason hs br =>
          cases br with
          | ok body =>
            simpa [tryStrategies] using List.Sublist.cons₂ name (List.nil_sublist _)
          | err msg stDbg =>
            simpa [tryStrategies] using List.Sublist.cons₂ name (List.nil_sublist _)
        | err msg tmo conn reqe stc chain =>
          simpa [tryStrategies] using List.Sublist.cons₂ name (ih _)

/-- The initial tracebuilder content influences only the trace of the
result, not which strategies are tried/built/executed nor the rest of the
result. -/
theorem tryStrategies_skeleton (rt ru : String) (m : Method) :
    ∀ (l : List (String × StratEnv)) (t₁ t₂ : String),
      (tryStrategies rt ru m l t₁).tried = (tryStrategies rt ru m l t₂).tried ∧
      (tryStrategies rt ru m l t₁).built = (tryStrategies rt ru m l t₂).built ∧
      (tryStrategies rt ru m l t₁).executed = (tryStrategies rt ru m l t₂).executed ∧
      (tryStrategies rt ru m l t₁).result.core = (tryStrategies rt ru m l t₂).result.core := by
  intro l
  induction l with
  | nil => intro t₁ t₂; simp [tryStrategies, SendResult.core]
  | cons p rest ih =>
    intro t₁ t₂
    obtain ⟨name, cr, bd, ex⟩ := p
    cases cr with
    | err e =>
      simp only [tryStrategies]
      exact ⟨congrArg (List.cons name) (ih _ _).1, (ih _ _).2.1, (ih _ _).2.2.1, (ih _ _).2.2.2⟩
    | ok =>
      cases bd with
      | err e =>
        simp only [tryStrategies]
        exact ⟨congrArg (List.cons name) (ih _ _).1, (ih _ _).2.1, (ih _ _).2.2.1, (ih _ _).2.2.2⟩
      | ok =>
        cases ex with
        | ok st reason hs br =>
          cases br with
          | ok body => simp [tryStrategies]
          | err msg stDbg => simp [tryStrategies, SendResult.core]
        | err msg tmo conn reqe stc chain =>
          simp only [tryStrategies]
          exact ⟨congrArg (List.cons name) (ih _ _).1, congrArg (List.cons (name, m, ru)) (ih _ _).2.1,
            congrArg (List.cons name) (ih _ _).2.2.1, (ih _ _).2.2.2⟩

/-- An error result's trace extends the initial tracebuilder, strictly so
when the strategy list is non-empty. -/
theorem tryStrategies_err_trace (rt ru : String) (m : Method) :
    ∀ (l : List (String × StratEnv)) (t e s : String) (hs : List String) (tr : String),
      (tryStrategies rt ru m l t).result = .err e s hs tr →
      ∃ d, tr = t ++ d ∧ (l ≠ [] → d ≠ "") := by
  intro l
  induction l with
  | nil =>
    intro t e s hs tr h
    have hres : (tryStrategies rt ru m [] t).result = .err "All Attempts Failed" "Failed" [] t := rfl
    rw [hres] at h
    injection h with h1 h2 h3 h4
    exact ⟨"", by rw [← h4, String.append_empty], fun hc => absurd rfl hc⟩
  | cons p rest ih =>
    intro t e s hs tr h
    obtain ⟨name, cr, bd, ex⟩ := p
    have hne : ("\nTrying " : String) ≠ "" := by decide
    cases cr with
    | err e2 =>
      simp only [tryStrategies] at h
      obtain ⟨d, hdq, _⟩ := ih _ _ _ _ _ h
      have hsh : tr = t ++ ("\nTrying " ++ (name ++ ("...\n" ++
          ("Failed to create " ++ (name ++ (": " ++ (e2 ++ ("\n" ++ d)))))))) := by
        rw [hdq]
        simp only [String.append_assoc]
      exact ⟨_, hsh, fun _ => str_append_ne_left _ _ hne⟩
    | ok =>
      cases bd with
      | err e2 =>
        simp only [tryStrategies] at h
        obtain ⟨d, hdq, _⟩ := ih _ _ _ _ _ h
        have hsh : tr = t ++ ("\nTrying " ++ (name ++ ("...\n" ++
            ("Failed to build request with " ++ (name ++ (": " ++ (e2 ++ ("\n" ++ d)))))))) := by
          rw [hdq]
          simp only [String.append_assoc]
        exact ⟨_, hsh, fun _ => str_append_ne_left _ _ hne⟩
      | ok =>
        cases ex with
        | ok st reason hhs br =>
          cases br with
          | ok body =>
            exfalso
            simp only [tryStrategies] at h
            exact absurd h (by simp)
          | err msg stDbg =>
            simp only [tryStrategies] at h
            injection h with h1 h2 h3 h4
            have hsh : tr = t ++ ("\nTrying " ++ (name ++ ("...\n" ++ ("Sending " ++ (rt ++
                (" request to: " ++ (ru ++ (" with " ++ (name ++ ("\n" ++ ("Success with " ++
                (name ++ "!\n")))))))))))) := by
              rw [← h4]
              simp only [String.append_assoc]
            exact ⟨_, hsh, fun _ => str_append_ne_left _ _ hne⟩
        | err msg tmo conn reqe stc chain =>
          simp only [tryStrategies] at h
          obtain ⟨d, hdq, _⟩ := ih _ _ _ _ _ h
          have hsh : tr = t ++ ("\nTrying " ++ (name ++ ("...\n" ++ ("Sending " ++ (rt ++
              (" request to: " ++ (ru ++ (" with " ++ (name ++ ("\n" ++ ("Failed with " ++
              (name ++ (": " ++ (msg ++ ("\n" ++ (printErrorDetails msg tmo conn reqe stc chain ++
              d)))))))))))))))) := by
            rw [hdq]
            simp only [String.append_assoc]
          exact ⟨_, hsh, fun _ => str_append_ne_left _ _ hne⟩

/-- A strategy for which construction, build, execution and body read all
succeed. -/
def stratFullSuccess (se : StratEnv) : Prop :=
  se.create = .ok ∧ se.build = .ok ∧
    ∃ st reason hs body, se.exec = .ok st reason hs (.ok body)

/-- A strategy that fails in one of the three locally-recovered ways:
client construction, request build, or transport execution. -/
def stratRecoverableFail (se : StratEnv) : Prop :=
  (∃ e, se.create = .err e) ∨
  (se.create = .ok ∧ ∃ e, se.build = .err e) ∨
  (se.create = .ok ∧ se.build = .ok ∧
    ∃ msg tmo conn reqe stc chain, se.exec = .err msg tmo conn reqe stc chain)

/-- A fully successful strategy at the head of the list stops the loop at
once: only it is tried, built and executed, and the loop returns its
response. -/
theorem tryStrategies_first_success (rt ru : String) (m : Method) (name : String)
    (se : StratEnv) (rest : List (String × StratEnv)) (t : String)
    (h : stratFullSuccess se) :
    ∃ st reason hs body,
      tryStrategies rt ru m ((name, se) :: rest) t =
        ⟨[name], [(name, m, ru)], [name],
          .ok (renderStatus st reason) (renderHeaders hs) body⟩ := by
  obtain ⟨hc, hb, st, reason, hs, body, he⟩ := h
  exact ⟨st, reason, hs, body, by simp [tryStrategies, hc, hb, he]⟩

/-- A recoverably-failing strategy at the head of the list only records its
failure: the loop's verdict is the verdict on the remaining strategies. -/
theorem tryStrategies_recoverable (rt ru : String) (m : Method) (name : String)
    (se : StratEnv) (rest : List (String × StratEnv)) (t : String)
    (h : stratRecoverableFail se) :
    (tryStrategies rt ru m ((name, se) :: rest) t).result.core =
      (tryStrategies rt ru m rest t).result.core ∧
    (tryStrategies rt ru m ((name, se) :: rest) t).tried =
      name :: (tryStrategies rt ru m rest t).tried := by
  rcases h with ⟨e, hc⟩ | ⟨hc, e, hb⟩ | ⟨hc, hb, msg, tmo, conn, reqe, stc, chain, he⟩
  · simp only [tryStrategies, hc]
    exact ⟨(tryStrategies_skeleton rt ru m rest _ t).2.2.2,
      congrArg (List.cons name) (tryStrategies_skeleton rt ru m rest _ t).1⟩
  · simp only [tryStrategies, hc, hb]
    exact ⟨(tryStrategies_skeleton rt ru m rest _ t).2.2.2,
      congrArg (List.cons name) (tryStrategies_skeleton rt ru m rest _ t).1⟩
  · simp only [tryStrategies, hc, hb, he]
    exact ⟨(tryStrategies_skeleton rt ru m rest _ t).2.2.2,
      congrArg (List.cons name) (tryStrategies_skeleton rt ru m rest _ t).1⟩

/-- If every strategy in the list fails recoverably, the loop is exhausted
and the final value is the `All Attempts Failed` error. -/
theorem tryStrategies_allFail (rt ru : String) (m : Method) :
    ∀ (l : List (String × StratEnv)) (t : String),
      (∀ p ∈ l, stratRecoverableFail p.2) →
      ∃ tr, (tryStrategies rt ru m l t).result = .err "All Attempts Failed" "Failed" [] tr := by
  intro l
  induction l with
  | nil => intro t _; exact ⟨t, rfl⟩
  | cons p rest ih =>
    intro t hall
    obtain ⟨name, se⟩ := p
    have hcore := (tryStrategies_recoverable rt ru m name se rest t
      (hall _ (List.mem_cons_self _ _))).1
    obtain ⟨tr₁, hres⟩ := ih t (fun q hq => hall q (List.mem_cons_of_mem _ hq))
    rw [hres] at hcore
    cases hcons : (tryStrategies rt ru m ((name, se) :: rest) t).result with
    | ok st hs b =>
      rw [hcons] at hcore
      simp [SendResult.core] at hcore
    | err a b c dd =>
      rw [hcons] at hcore
      simp only [SendResult.core] at hcore
      injection hcore with h1 h2 h3 h4
      refine ⟨dd, ?_⟩
      subst h1
      subst h2
      subst h3
      rfl

/-- Every request the loop builds carries exactly the parsed method and the
caller's URL. -/
theorem tryStrategies_built_shape (rt ru : String) (m : Method) :
    ∀ (l : List (String × StratEnv)) (t : String),
      ∀ x ∈ (tryStrategies rt ru m l t).built, x.2.1 = m ∧ x.2.2 = ru := by
  intro l
  induction l with
  | nil => intro t x hx; simp [tryStrategies] at hx
  | cons p rest ih =>
    intro t x hx
    obtain ⟨name, cr, bd, ex⟩ := p
    cases cr with
    | err e =>
      simp only [tryStrategies] at hx
      exact ih _ x hx
    | ok =>
      cases bd with
      | err e =>
        simp only [tryStrategies] at hx
        exact ih _ x hx
      | ok =>
        cases ex with
        | ok st reason hs br =>
          cases br with
          | ok body =>
            simp only [tryStrategies, List.mem_singleton] at hx
            subst hx
            exact ⟨rfl, rfl⟩
          | err msg stDbg =>
            simp only [tryStrategies, List.mem_singleton] at hx
            subst hx
            exact ⟨rfl, rfl⟩
        | err msg tmo conn reqe stc chain =>
          simp only [tryStrategies, List.mem_cons] at hx
          rcases hx with hx | hx
          · subst hx
            exact ⟨rfl, rfl⟩
          · exact ih _ x hx

/-- Every `send_request` run either returns before the strategy loop (no
strategy tried, built or executed) or hands control to the loop over the
fixed strategy list. -/
theorem sendRequest_shape (rt ru rh rb : String) (env : Env) :
    ((sendRequest rt ru rh rb env).tried = [] ∧ (sendRequest rt ru rh rb env).built = [] ∧
      (sendRequest rt ru rh rb env).executed = []) ∨
    (∃ m t, parseMethod rt = some m ∧
      (sendRequest rt ru rh rb env).tried = (tryStrategies rt ru m env.strategies t).tried ∧
      (sendRequest rt ru rh rb env).built = (tryStrategies rt ru m env.strategies t).built ∧
      (sendRequest rt ru rh rb env).executed = (tryStrategies rt ru m env.strategies t).executed ∧
      (sendRequest rt ru rh rb env).result = (tryStrategies rt ru m env.strategies t).result) := by
  cases hpm : parseMethod rt with
  | none =>
    left
    refine ⟨?_, ?_, ?_⟩ <;> simp [sendRequest, hpm, earlyErr]
  | some m =>
    cases hup : env.urlParse with
    | none =>
      right
      refine ⟨m, "", rfl, ?_, ?_, ?_, ?_⟩ <;> simp [sendRequest, hpm, hup, runLoop]
    | some url =>
      cases hh : url.host with
      | none =>
        right
        refine ⟨m, "", rfl, ?_, ?_, ?_, ?_⟩ <;> simp [sendRequest, hpm, hup, hh, runLoop]
      | some host =>
        cases hd : testDns host url.effPort env.dns with
        | err e0 e1 =>
          left
          refine ⟨?_, ?_, ?_⟩ <;> simp [sendRequest, hpm, hup, hh, hd, earlyErr]
        | ok dd =>
          cases hc : env.sniff.connect with
          | err e =>
            left
            refine ⟨?_, ?_, ?_⟩ <;> simp [sendRequest, hpm, hup, hh, hd, hc, earlyErr]
          | ok =>
            cases hw : env.sniff.wr with
            | err e =>
              left
              refine ⟨?_, ?_, ?_⟩ <;> simp [sendRequest, hpm, hup, hh, hd, hc, hw, earlyErr]
            | ok =>
              right
              refine ⟨m, urlAnalysisTrace host url.effPort url.scheme ++
                "Resolved DNS to: " ++ dd ++ "\n" ++ "Testing server response...\n" ++
                sniffMsg url.scheme env.sniff.readRes, rfl, ?_, ?_, ?_, ?_⟩ <;>
                simp [sendRequest, hpm, hup, hh, hd, hc, hw, runLoop]

/-! ## Claim theorems -/

/-- C1: The executor tries client strategies in the fixed order Standard,
Permissive, Legacy TLS for every input — the executed strategies always form
an order-preserving subsequence of that fixed list, so no other ordering is
ever observed — and it stops at the first strategy whose request execution
and body read succeed: whenever the Standard strategy would fully succeed,
the run either never reaches the loop or executes exactly Standard, and
Permissive and Legacy TLS are never attempted. -/
theorem strategyOrderAndFirstSuccess (rt ru rh rb : String) (env : Env) :
    (sendRequest rt ru rh rb env).executed.Sublist ["Standard", "Permissive", "Legacy TLS"] ∧
    (stratFullSuccess env.standard →
      ((sendRequest rt ru rh rb env).executed = [] ∨
        (sendRequest rt ru rh rb env).executed = ["Standard"]) ∧
      "Permissive" ∉ (sendRequest rt ru rh rb env).executed ∧
      "Legacy TLS" ∉ (sendRequest rt ru rh rb env).executed) := by
  rcases sendRequest_shape rt ru rh rb env with ⟨ht, hb, he⟩ | ⟨m, t, hpm, htr, hbu, hex, hres⟩
  · rw [he]
    exact ⟨List.nil_sublist _, fun _ => ⟨.inl rfl, by simp, by simp⟩⟩
  · rw [hex]
    constructor
    · have h := tryStrategies_executed_sublist rt ru m env.strategies t
      simpa [Env.strategies] using h
    · intro hs
      obtain ⟨st, reason, hhs, body, heq⟩ :=
        tryStrategies_first_success rt ru m "Standard" env.standard
          [("Permissive", env.permissive), ("Legacy TLS", env.legacyTls)] t hs
      have hone : (tryStrategies rt ru m env.strategies t).executed = ["Standard"] := by
        rw [show env.strategies = ("Standard", env.standard) ::
          [("Permissive", env.permissive), ("Legacy TLS", env.legacyTls)] from rfl, heq]
      rw [hone]
      exact ⟨.inr rfl, by simp, by simp⟩

def stratPlain : StratEnv := ⟨.ok, .ok, .ok 200 "OK" [] (.ok "hi")⟩

def envFirstSuccess : Env :=
  { urlParse := some ⟨"http", some "example.com", none⟩
    dns := .literal .ok
    sniff := ⟨.ok, .ok, .timeout⟩
    standard := stratPlain
    permissive := stratPlain
    legacyTls := stratPlain }

/-- Witness for C1 at a concrete environment where Standard succeeds. -/
theorem strategyOrderAndFirstSuccess_w :
    (sendRequest "GET" "http://example.com/" "" "" envFirstSuccess).executed.Sublist
        ["Standard", "Permissive", "Legacy TLS"] ∧
    ((sendRequest "GET" "http://example.com/" "" "" envFirstSuccess).executed = [] ∨
      (sendRequest "GET" "http://example.com/" "" "" envFirstSuccess).executed = ["Standard"]) ∧
    "Permissive" ∉ (sendRequest "GET" "http://example.com/" "" "" envFirstSuccess).executed ∧
    "Legacy TLS" ∉ (sendRequest "GET" "http://example.com/" "" "" envFirstSuccess).executed := by
  have h := strategyOrderAndFirstSuccess "GET" "http://example.com/" "" "" envFirstSuccess
  exact ⟨h.1, h.2 ⟨rfl, rfl, 200, "OK", [], "hi", rfl⟩⟩

/-- C2: For every request whose reachability probe fails, the diagnosis
short-circuits before the sniff and execution phases: the run returns a
`DNS Resolution Failed` error whose trace contains the reachability error
text (both the error display and the probe's local trace), the sniff
connection is never opened, and zero strategies are tried, built or
executed. -/
theorem reachabilityShortCircuit (rt ru rh rb : String) (env : Env) (m : Method)
    (url : Url) (host e0 e1 : String)
    (hm : parseMethod rt = some m) (hu : env.urlParse = some url) (hh : url.host = some host)
    (hd : testDns host url.effPort env.dns = .err e0 e1) :
    sendRequest rt ru rh rb env =
      ⟨true, false, none, [], [], [],
        .err ("Cannot establish TCP connection to " ++ host ++ ":" ++ toString url.effPort)
          "DNS Resolution Failed" []
          (urlAnalysisTrace host url.effPort url.scheme ++ e0 ++ "\n" ++ e1)⟩ := by
  simp [sendRequest, hm, hu, hh, hd, earlyErr]

def stratConnErr : StratEnv := ⟨.ok, .ok, .err "connection refused" false true false none []⟩

def envDnsFail : Env :=
  { urlParse := some ⟨"http", some "nohost.invalid", none⟩
    dns := .resolveFailed "failed to lookup address information"
    sniff := ⟨.ok, .ok, .timeout⟩
    standard := stratConnErr
    permissive := stratConnErr
    legacyTls := stratConnErr }

/-- Witness for C2 at a concrete environment whose DNS resolution fails. -/
theorem reachabilityShortCircuit_w :
    sendRequest "GET" "http://nohost.invalid/" "" "" envDnsFail =
      ⟨true, false, none, [], [], [],
        .err ("Cannot establish TCP connection to " ++ "nohost.invalid" ++ ":" ++
            toString (Url.effPort ⟨"http", some "nohost.invalid", none⟩))
          "DNS Resolution Failed" []
          (urlAnalysisTrace "nohost.invalid" (Url.effPort ⟨"http", some "nohost.invalid", none⟩)
              "http" ++
            "failed to lookup address information" ++ "\n" ++
            ("DNS resolution failed: " ++ "failed to lookup address information" ++ "\n"))⟩ :=
  reachabilityShortCircuit "GET" "http://nohost.invalid/" "" "" envDnsFail .GET
    ⟨"http", some "nohost.invalid", none⟩ "nohost.invalid"
    "failed to lookup address information"
    ("DNS resolution failed: " ++ "failed to lookup address information" ++ "\n")
    rfl rfl rfl rfl

def envWriteFail : Env :=
  { urlParse := some ⟨"http", some "example.com", none⟩
    dns := .literal .ok
    sniff := ⟨.ok, .err "broken pipe", .timeout⟩
    standard := stratPlain
    permissive := stratPlain
    legacyTls := stratPlain }

set_option maxRecDepth 40000 in
/-- C3 counterexample: a sniff write failure (one of the sniff outcomes the
claim covers) aborts the whole run — the result is the `Write Failed` error
and the execution phase never runs (zero strategies tried or executed), even
though every strategy would have succeeded. -/
theorem sniffWriteAborts_cex :
    sendRequest "GET" "http://example.com/" "" "" envWriteFail =
      ⟨true, true, some "GET / HTTP/1.1\r\nHost: example.com\r\nConnection: close\r\n\r\n",
        [], [], [],
        .err "Failed to write request to example.com:80: broken pipe" "Write Failed" []
          "URL Analysis:\n  Host: example.com\n  Port: 80\n  Scheme: http\n\nResolved DNS to: example.com:80\nTesting server response...\nFailed to write request to example.com:80: broken pipe\n"⟩ := by
  decide

/-- C3 (amended): Only the *read* phase of the sniff is advisory: once the
sniff connection is open and the probe write has succeeded, no read outcome
(closed connection, read error, read timeout, TLS/plain-HTTP/unrecognized
bytes) alters which strategies are tried, built or executed, nor the
trace-stripped result — the read outcome only changes the trace, and the
multi-strategy loop always runs afterwards.  (A sniff connection failure or
write failure, by contrast, aborts the run, as the counterexample shows.) -/
theorem sniffReadAdvisory (rt ru rh rb : String) (env : Env) (m : Method) (url : Url)
    (host d : String)
    (hm : parseMethod rt = some m) (hu : env.urlParse = some url) (hh : url.host = some host)
    (hd : testDns host url.effPort env.dns = .ok d)
    (hc : env.sniff.connect = .ok) (hw : env.sniff.wr = .ok) (r₁ r₂ : SniffRead) :
    (sendRequest rt ru rh rb { env with sniff := { env.sniff with readRes := r₁ } }).tried =
      (sendRequest rt ru rh rb { env with sniff := { env.sniff with readRes := r₂ } }).tried ∧
    (sendRequest rt ru rh rb { env with sniff := { env.sniff with readRes := r₁ } }).built =
      (sendRequest rt ru rh rb { env with sniff := { env.sniff with readRes := r₂ } }).built ∧
    (sendRequest rt ru rh rb { env with sniff := { env.sniff with readRes := r₁ } }).executed =
      (sendRequest rt ru rh rb { env with sniff := { env.sniff with readRes := r₂ } }).executed ∧
    (sendRequest rt ru rh rb { env with sniff := { env.sniff with readRes := r₁ } }).result.core =
      (sendRequest rt ru rh rb { env with sniff := { env.sniff with readRes := r₂ } }).result.core ∧
    (sendRequest rt ru rh rb { env with sniff := { env.sniff with readRes := r₁ } }).executed =
      (tryStrategies rt ru m env.strategies "").executed ∧
    (sendRequest rt ru rh rb { env with sniff := { env.sniff with readRes := r₁ } }).result.core =
      (tryStrategies rt ru m env.strategies "").result.core := by
  refine ⟨?_, ?_, ?_, ?_, ?_, ?_⟩ <;>
    simp only [sendRequest, hm, hu, hh, hd, hc, hw, runLoop, Env.strategies] <;>
    first
      | exact (tryStrategies_skeleton rt ru m _ _ _).1
      | exact (tryStrategies_skeleton rt ru m _ _ _).2.1
      | exact (tryStrategies_skeleton rt ru m _ _ _).2.2.1
      | exact (tryStrategies_skeleton rt ru m _ _ _).2.2.2

def envSniffTls : Env :=
  { urlParse := some ⟨"http", some "example.com", none⟩
    dns := .literal .ok
    sniff := ⟨.ok, .ok, .data [0x16]⟩
    standard := stratPlain
    permissive := stratPlain
    legacyTls := stratPlain }

/-- Witness for C3 (amended): a TLS-handshake read and a timeout read give
identical executed strategies and trace-stripped results. -/
theorem sniffReadAdvisory_w :
    (sendRequest "GET" "http://example.com/" "" ""
        { envSniffTls with sniff := { envSniffTls.sniff with readRes := .data [0x16] } }).executed =
      (sendRequest "GET" "http://example.com/" "" ""
        { envSniffTls with sniff := { envSniffTls.sniff with readRes := .timeout } }).executed ∧
    (sendRequest "GET" "http://example.com/" "" ""
        { envSniffTls with sniff := { envSniffTls.sniff with readRes := .data [0x16] } }).result.core =
      (sendRequest "GET" "http://example.com/" "" ""
        { envSniffTls with sniff := { envSniffTls.sniff with readRes := .timeout } }).result.core ∧
    (sendRequest "GET" "http://example.com/" "" ""
        { envSniffTls with sniff := { envSniffTls.sniff with readRes := .data [0x16] } }).executed =
      (tryStrategies "GET" "http://example.com/" Method.GET envSniffTls.strategies "").executed := by
  have h := sniffReadAdvisory "GET" "http://example.com/" "" "" envSniffTls Method.GET
    ⟨"http", some "example.com", none⟩ "example.com" "example.com:80"
    rfl rfl rfl rfl rfl rfl (.data [0x16]) .timeout
  exact ⟨h.2.2.1, h.2.2.2.1, h.2.2.2.2.1⟩

def stratBuildErr : StratEnv :=
  ⟨.ok, .err "relative URL without a base", .err "" false false false none []⟩

def envBadUrl : Env :=
  { urlParse := none
    dns := .literal .ok
    sniff := ⟨.ok, .ok, .timeout⟩
    standard := stratBuildErr
    permissive := stratBuildErr
    legacyTls := stratBuildErr }

set_option maxRecDepth 40000 in
/-- C4 counterexample: on a URL that fails to parse the diagnosis does NOT
fail immediately with a malformed-URL error — the strategy-execution phase
still runs (all three strategies are tried) and the run ends with the
`All Attempts Failed` error instead. -/
theorem malformedUrlStillExecutes_cex :
    sendRequest "GET" "ht!tp:bad url" "" "" envBadUrl =
      ⟨false, false, none, ["Standard", "Permissive", "Legacy TLS"], [], [],
        .err "All Attempts Failed" "Failed" []
          "\nTrying Standard...\nFailed to build request with Standard: relative URL without a base\n\nTrying Permissive...\nFailed to build request with Permissive: relative URL without a base\n\nTrying Legacy TLS...\nFailed to build request with Legacy TLS: relative URL without a base\n"⟩ := by
  decide

/-- C4 (amended): For every input URL string that fails to parse, the
reachability probe and the sniff are skipped (no DNS probe, no sniff
connection, no probe bytes), but no malformed-URL error is produced and the
run does not fail immediately: it proceeds directly to the multi-strategy
execution loop (with an empty initial trace) and returns that loop's
verdict. -/
theorem malformedUrlFallsThrough (rt ru rh rb : String) (env : Env) (m : Method)
    (hm : parseMethod rt = some m) (hu : env.urlParse = none) :
    sendRequest rt ru rh rb env =
      ⟨false, false, none,
        (tryStrategies rt ru m env.strategies "").tried,
        (tryStrategies rt ru m env.strategies "").built,
        (tryStrategies rt ru m env.strategies "").executed,
        (tryStrategies rt ru m env.strategies "").result⟩ := by
  simp [sendRequest, hm, hu, runLoop]

/-- Witness for C4 (amended) at the concrete parse-failure environment. -/
theorem malformedUrlFallsThrough_w :
    sendRequest "GET" "ht!tp:bad url" "x" "y" envBadUrl =
      ⟨false, false, none,
        (tryStrategies "GET" "ht!tp:bad url" Method.GET envBadUrl.strategies "").tried,
        (tryStrategies "GET" "ht!tp:bad url" Method.GET envBadUrl.strategies "").built,
        (tryStrategies "GET" "ht!tp:bad url" Method.GET envBadUrl.strategies "").executed,
        (tryStrategies "GET" "ht!tp:bad url" Method.GET envBadUrl.strategies "").result⟩ :=
  malformedUrlFallsThrough "GET" "ht!tp:bad url" "x" "y" envBadUrl Method.GET rfl rfl

def envBodyFail : Env :=
  { urlParse := some ⟨"http", some "example.com", none⟩
    dns := .literal .ok
    sniff := ⟨.ok, .ok, .timeout⟩
    standard := ⟨.ok, .ok, .ok 200 "OK" [("content-type", "text/plain")]
      (.err "error decoding response body" "None")⟩
    permissive := stratPlain
    legacyTls := stratPlain }

set_option maxRecDepth 40000 in
/-- C5 counterexample: a body-read failure on the Standard strategy is NOT
recovered by continuing to the next strategy — the run stops with the
body-read failure after executing only Standard, even though the Permissive
strategy would have fully succeeded, so the error is promoted to a
user-visible failure without every strategy having failed. -/
theorem bodyReadFailureAborts_cex :
    stratFullSuccess envBodyFail.permissive ∧
    (sendRequest "GET" "http://example.com/" "" "" envBodyFail).executed = ["Standard"] ∧
    (sendRequest "GET" "http://example.com/" "" "" envBodyFail).result =
      .err "Unable to read response body: error decoding response body" "None"
        ["content-type: text/plain"]
        "URL Analysis:\n  Host: example.com\n  Port: 80\n  Scheme: http\n\nResolved DNS to: example.com:80\nTesting server response...\nNo response within timeout\n\nTrying Standard...\nSending GET request to: http://example.com/ with Standard\nSuccess with Standard!\n" :=
  ⟨⟨rfl, rfl, 200, "OK", [], "hi", rfl⟩, by decide, by decide⟩

/-- C5 (amended): Client construction failures, request build failures and
transport failures are recovered locally: such a strategy only appends to
the trace and the loop's verdict is the verdict on the remaining strategies;
when every strategy in the list fails in one of those recoverable ways the
error is promoted to the user-visible `All Attempts Failed` result.  A
body-read failure, by contrast, is not recovered: it ends the loop at that
strategy with a failure carrying the response's status and headers. -/
theorem strategyErrorRecovery (rt ru : String) (m : Method) (name : String)
    (se : StratEnv) (rest : List (String × StratEnv)) (t : String) :
    (stratRecoverableFail se →
      (tryStrategies rt ru m ((name, se) :: rest) t).result.core =
        (tryStrategies rt ru m rest t).result.core ∧
      (tryStrategies rt ru m ((name, se) :: rest) t).tried =
        name :: (tryStrategies rt ru m rest t).tried) ∧
    (∀ l : List (String × StratEnv), (∀ p ∈ l, stratRecoverableFail p.2) →
      (tryStrategies rt ru m l t).result.core =
        .err "All Attempts Failed" "Failed" [] "") ∧
    (∀ st reason hs msg stDbg, se.create = .ok → se.build = .ok →
      se.exec = .ok st reason hs (.err msg stDbg) →
      (tryStrategies rt ru m ((name, se) :: rest) t).result.core =
        .err ("Unable to read response body: " ++ msg) stDbg (renderHeaders hs) "" ∧
      (tryStrategies rt ru m ((name, se) :: rest) t).executed = [name]) := by
  refine ⟨fun h => tryStrategies_recoverable rt ru m name se rest t h, ?_, ?_⟩
  · intro l hl
    obtain ⟨tr, htr⟩ := tryStrategies_allFail rt ru m l t hl
    rw [htr, SendResult.core]
  · intro st reason hs msg stDbg hc hb he
    constructor
    · simp [tryStrategies, hc, hb, he, SendResult.core]
    · simp [tryStrategies, hc, hb, he]

def stratNoTls : StratEnv := ⟨.err "no tls backend", .ok, .err "" false false false none []⟩

def stratBodyErr : StratEnv := ⟨.ok, .ok, .ok 200 "OK" [] (.err "bad utf8" "None")⟩

/-- Witness for C5 (amended) at concrete strategies: a construction failure
is skipped over; every-strategy failure yields `All Attempts Failed`; a
body-read failure stops the loop with the body error. -/
theorem strategyErrorRecovery_w :
    ((tryStrategies "GET" "http://u/" Method.GET [("Standard", stratNoTls)] "").result.core =
      (tryStrategies "GET" "http://u/" Method.GET [] "").result.core) ∧
    ((tryStrategies "GET" "http://u/" Method.GET [("Standard", stratNoTls)] "").result.core =
      .err "All Attempts Failed" "Failed" [] "") ∧
    ((tryStrategies "GET" "http://u/" Method.GET [("Standard", stratBodyErr)] "").result.core =
      .err ("Unable to read response body: " ++ "bad utf8") "None" (renderHeaders []) "" ∧
    (tryStrategies "GET" "http://u/" Method.GET [("Standard", stratBodyErr)] "").executed =
      ["Standard"]) := by
  have h1 := (strategyErrorRecovery "GET" "http://u/" Method.GET "Standard" stratNoTls [] "").1
    (.inl ⟨"no tls backend", rfl⟩)
  have h2 := (strategyErrorRecovery "GET" "http://u/" Method.GET "Standard" stratNoTls [] "").2.1
    [("Standard", stratNoTls)] (by
      intro p hp
      simp only [List.mem_singleton] at hp
      subst hp
      exact .inl ⟨"no tls backend", rfl⟩)
  have h3 := (strategyErrorRecovery "GET" "http://u/" Method.GET "Standard" stratBodyErr [] "").2.2
    200 "OK" [] "bad utf8" "None" rfl rfl rfl
  exact ⟨h1.1, h2, h3⟩

/-- C8: For every sniff read that returns at least one byte the
classification applies its rules in priority order — first buffer byte
`0x16` (the first received byte) yields the TLS-handshake classification;
otherwise first four buffer bytes equal to ASCII `"HTTP"` yields the
plain-HTTP classification with the decoded preview slice; otherwise the
unrecognized classification with a hex preview of (at most) 20 bytes — while
a read of zero bytes yields connection-closed and a read timeout yields
read-timeout. -/
theorem sniffClassification (plainLen : Nat) (recv : List Nat) :
    (1 ≤ recv.length → (buffer1024 recv).headD 0 = recv.headD 0) ∧
    (1 ≤ recv.length → (buffer1024 recv).headD 0 = 0x16 →
      classifyRead plainLen (.data recv) = .tlsHandshake) ∧
    (1 ≤ recv.length → (buffer1024 recv).headD 0 ≠ 0x16 →
      (buffer1024 recv).take 4 = [0x48, 0x54, 0x54, 0x50] →
      classifyRead plainLen (.data recv) = .plainHttp ((buffer1024 recv).take plainLen)) ∧
    (1 ≤ recv.length → (buffer1024 recv).headD 0 ≠ 0x16 →
      (buffer1024 recv).take 4 ≠ [0x48, 0x54, 0x54, 0x50] →
      classifyRead plainLen (.data recv) = .unrecognized ((buffer1024 recv).take 20) ∧
      ((buffer1024 recv).take 20).length ≤ 20) ∧
    (recv.length = 0 → classifyRead plainLen (.data recv) = .connectionClosed) ∧
    (∀ e, classifyRead plainLen (.readErr e) = .readError e) ∧
    (classifyRead plainLen .timeout = .readTimeout) := by
  refine ⟨?_, ?_, ?_, ?_, ?_, fun e => rfl, rfl⟩
  · intro h
    cases recv with
    | nil => simp at h
    | cons a as => rfl
  · intro h h16
    have h16x : (buffer1024 recv).head?.getD 0 = 0x16 := by simpa using h16
    simp [classifyRead, h, h16x]
  · intro h h16 hht
    have h16x : ¬ (buffer1024 recv).head?.getD 0 = 0x16 := by simpa using h16
    simp [classifyRead, h, h16x, hht]
  · intro h h16 hht
    have h16x : ¬ (buffer1024 recv).head?.getD 0 = 0x16 := by simpa using h16
    constructor
    · simp [classifyRead, h, h16x, hht]
    · rw [List.length_take]
      exact Nat.min_le_left _ _
  · intro h0
    simp [classifyRead, h0]

set_option maxRecDepth 40000 in
/-- Witness for C8 at concrete reads: a TLS first byte, an ASCII `HTTP`
prefix, and a zero-byte read. -/
theorem sniffClassification_w :
    classifyRead 100 (.data [0x16, 0x03]) = .tlsHandshake ∧
    classifyRead 1024 (.data [0x48, 0x54, 0x54, 0x50, 0x2f]) =
      .plainHttp ((buffer1024 [0x48, 0x54, 0x54, 0x50, 0x2f]).take 1024) ∧
    classifyRead 100 (.data []) = .connectionClosed := by
  have h1 := (sniffClassification 100 [0x16, 0x03]).2.1 (by decide) (by decide)
  have h2 := (sniffClassification 1024 [0x48, 0x54, 0x54, 0x50, 0x2f]).2.2.1
    (by decide) (by decide) (by decide)
  have h3 := (sniffClassification 100 ([] : List Nat)).2.2.2.2.1 (by decide)
  exact ⟨h1, h2, h3⟩

/-- The history entry built by `App::send_request` (main.rs 107-128) from
the value `request::send_request` returned. -/
structure RequestResult where
  index : Nat
  reqHeaders : String
  reqBody : String
  url : String
  status : String
  headers : List String
  body : String
  error : Option String
deriving DecidableEq

/-- The `match rt.block_on(...)` of main.rs 107-128: on success the body is
the response body and `error` is `None`; on failure the body is the
accumulated tracebuilder and `error` is the error display text. -/
def mkRequestResult (idx : Nat) (reqHeaders reqBody url : String) (r : SendResult) :
    RequestResult :=
  match r with
  | .ok status headers body => ⟨idx, reqHeaders, reqBody, url, status, headers, body, none⟩
  | .err e status headers trace => ⟨idx, reqHeaders, reqBody, url, status, headers, trace, some e⟩

/-- C9 counterexample: the unsupported-method rejection returns a failure
whose trace is the EMPTY string, and the history entry shown to the user
carries an empty body — a bare error without any accumulated narrative,
contradicting the claim that every result carries a populated trace. -/
theorem invalidMethodEmptyTrace_cex :
    (sendRequest "FOO" "http://example.com/" "" "" envFirstSuccess).result =
      .err "Invalid request type" "" [] "" ∧
    mkRequestResult 1 "" "" "http://example.com/"
        (sendRequest "FOO" "http://example.com/" "" "" envFirstSuccess).result =
      ⟨1, "", "", "http://example.com/", "", [], "", some "Invalid request type"⟩ :=
  ⟨rfl, rfl⟩

/-- C9 (amended): On every failure the accumulated trace is delivered as the
body shown to the user (with the error text alongside), and on success the
response body is shown with no trace attached; the failure trace is
non-empty for every run whose method is one of the five supported ones — the
unsupported-method failure alone carries an empty trace. -/
theorem failureTraceDelivery :
    (∀ (idx : Nat) (rh rb u e s : String) (hs : List String) (tr : String),
      mkRequestResult idx rh rb u (.err e s hs tr) =
        ⟨idx, rh, rb, u, s, hs, tr, some e⟩) ∧
    (∀ (idx : Nat) (rh rb u st : String) (hs : List String) (b : String),
      mkRequestResult idx rh rb u (.ok st hs b) =
        ⟨idx, rh, rb, u, st, hs, b, none⟩) ∧
    (∀ (rt ru rh rb : String) (env : Env) (m : Method) (e s : String) (hs : List String)
      (tr : String), parseMethod rt = some m →
      (sendRequest rt ru rh rb env).result = .err e s hs tr → tr ≠ "") := by
  refine ⟨fun _ _ _ _ _ _ _ _ => rfl, fun _ _ _ _ _ _ _ => rfl, ?_⟩
  intro rt ru rh rb env m e s hs tr hm hres
  cases hup : env.urlParse with
  | none =>
    simp only [sendRequest, hm, hup, runLoop] at hres
    obtain ⟨d, hd, hne⟩ := tryStrategies_err_trace rt ru m env.strategies "" e s hs tr hres
    rw [hd]
    exact str_append_ne_right _ _ (hne (by simp [Env.strategies]))
  | some url =>
    cases hh : url.host with
    | none =>
      simp only [sendRequest, hm, hup, hh, runLoop] at hres
      obtain ⟨d, hd, hne⟩ := tryStrategies_err_trace rt ru m env.strategies "" e s hs tr hres
      rw [hd]
      exact str_append_ne_right _ _ (hne (by simp [Env.strategies]))
    | some host =>
      cases hdns : testDns host url.effPort env.dns with
      | err e0 e1 =>
        simp only [sendRequest, hm, hup, hh, hdns, earlyErr, SendResult.err.injEq] at hres
        obtain ⟨_, _, _, h4⟩ := hres
        rw [← h4]
        apply str_append_ne_left
        apply str_append_ne_right
        decide
      | ok dd =>
        cases hc : env.sniff.connect with
        | err e2 =>
          simp only [sendRequest, hm, hup, hh, hdns, hc, earlyErr, SendResult.err.injEq] at hres
          obtain ⟨_, _, _, h4⟩ := hres
          rw [← h4]
          exact str_append_ne_right _ _ (by decide)
        | ok =>
          cases hw : env.sniff.wr with
          | err e2 =>
            simp only [sendRequest, hm, hup, hh, hdns, hc, hw, earlyErr,
              SendResult.err.injEq] at hres
            obtain ⟨_, _, _, h4⟩ := hres
            rw [← h4]
            exact str_append_ne_right _ _ (by decide)
          | ok =>
            simp only [sendRequest, hm, hup, hh, hdns, hc, hw, runLoop] at hres
            obtain ⟨d, hd, hne⟩ := tryStrategies_err_trace rt ru m env.strategies _ e s hs tr hres
            rw [hd]
            exact str_append_ne_right _ _ (hne (by simp [Env.strategies]))

set_option maxRecDepth 40000 in
/-- Witness for C9 (amended): a failure entry shows the trace as body, a
success entry shows the response body, and a concrete method-valid failure
has a non-empty trace. -/
theorem failureTraceDelivery_w :
    mkRequestResult 1 "H" "B" "http://u/" (.err "E" "S" ["h1"] "T") =
      ⟨1, "H", "B", "http://u/", "S", ["h1"], "T", some "E"⟩ ∧
    mkRequestResult 2 "H" "B" "http://u/" (.ok "200" ["h2"] "body") =
      ⟨2, "H", "B", "http://u/", "200", ["h2"], "body", none⟩ ∧
    ("\nTrying Standard...\nFailed to build request with Standard: relative URL without a base\n\nTrying Permissive...\nFailed to build request with Permissive: relative URL without a base\n\nTrying Legacy TLS...\nFailed to build request with Legacy TLS: relative URL without a base\n" : String) ≠ "" :=
  ⟨failureTraceDelivery.1 1 "H" "B" "http://u/" "E" "S" ["h1"] "T",
    failureTraceDelivery.2.1 2 "H" "B" "http://u/" "200" ["h2"] "body",
    failureTraceDelivery.2.2 "GET" "ht!tp:bad url" "" "" envBadUrl Method.GET
      "All Attempts Failed" "Failed" []
      "\nTrying Standard...\nFailed to build request with Standard: relative URL without a base\n\nTrying Permissive...\nFailed to build request with Permissive: relative URL without a base\n\nTrying Legacy TLS...\nFailed to build request with Legacy TLS: relative URL without a base\n"
      rfl (by decide)⟩

/-- C10: The HTTP request executed under each strategy consists only of the
method and the URL: the run is completely independent of the caller-supplied
body string, and changing the header string changes nothing observable
(tried/built/executed strategies and result are identical) except the https
sniff probe bytes; every built request is exactly (method, URL), and
whenever probe bytes are written they are the literal sniff probe, the only
place the header string is embedded. -/
theorem payloadIsolation (rt ru rh₁ rh₂ rb₁ rb₂ : String) (env : Env) :
    sendRequest rt ru rh₁ rb₁ env = sendRequest rt ru rh₁ rb₂ env ∧
    ((sendRequest rt ru rh₁ rb₁ env).tried = (sendRequest rt ru rh₂ rb₂ env).tried ∧
      (sendRequest rt ru rh₁ rb₁ env).built = (sendRequest rt ru rh₂ rb₂ env).built ∧
      (sendRequest rt ru rh₁ rb₁ env).executed = (sendRequest rt ru rh₂ rb₂ env).executed ∧
      (sendRequest rt ru rh₁ rb₁ env).result = (sendRequest rt ru rh₂ rb₂ env).result) ∧
    (∀ m, parseMethod rt = some m →
      ∀ x ∈ (sendRequest rt ru rh₁ rb₁ env).built, x.2.1 = m ∧ x.2.2 = ru) ∧
    (∀ url host p, env.urlParse = some url → url.host = some host →
      (sendRequest rt ru rh₁ rb₁ env).probeSent = some p →
      p = sniffProbe url.scheme host rh₁) := by
  refine ⟨rfl, ?_, ?_, ?_⟩
  · cases hpm : parseMethod rt with
    | none => refine ⟨?_, ?_, ?_, ?_⟩ <;> simp [sendRequest, hpm, earlyErr]
    | some m =>
      cases hup : env.urlParse with
      | none => refine ⟨?_, ?_, ?_, ?_⟩ <;> simp [sendRequest, hpm, hup, runLoop]
      | some url =>
        cases hh : url.host with
        | none => refine ⟨?_, ?_, ?_, ?_⟩ <;> simp [sendRequest, hpm, hup, hh, runLoop]
        | some host =>
          cases hdns : testDns host url.effPort env.dns with
          | err e0 e1 =>
            refine ⟨?_, ?_, ?_, ?_⟩ <;> simp [sendRequest, hpm, hup, hh, hdns, earlyErr]
          | ok dd =>
            cases hc : env.sniff.connect with
            | err e2 =>
              refine ⟨?_, ?_, ?_, ?_⟩ <;> simp [sendRequest, hpm, hup, hh, hdns, hc, earlyErr]
            | ok =>
              cases hw : env.sniff.wr with
              | err e2 =>
                refine ⟨?_, ?_, ?_, ?_⟩ <;>
                  simp [sendRequest, hpm, hup, hh, hdns, hc, hw, earlyErr]
              | ok =>
                refine ⟨?_, ?_, ?_, ?_⟩ <;>
                  simp [sendRequest, hpm, hup, hh, hdns, hc, hw, runLoop]
  · intro m hpm x hx
    rcases sendRequest_shape rt ru rh₁ rb₁ env with ⟨ht, hb, he⟩ | ⟨m2, t, hpm2, htr, hbu, hex, hres⟩
    · rw [hb] at hx
      cases hx
    · rw [hbu] at hx
      rw [hpm] at hpm2
      injection hpm2 with hmm
      subst hmm
      exact tryStrategies_built_shape rt ru _ env.strategies t x hx
  · intro url host p hup hh hp
    cases hpm : parseMethod rt with
    | none => simp [sendRequest, hpm, earlyErr] at hp
    | some m =>
      cases hdns : testDns host url.effPort env.dns with
      | err e0 e1 => simp [sendRequest, hpm, hup, hh, hdns, earlyErr] at hp
      | ok dd =>
        cases hc : env.sniff.connect with
        | err e2 => simp [sendRequest, hpm, hup, hh, hdns, hc, earlyErr] at hp
        | ok =>
          cases hw : env.sniff.wr with
          | err e2 =>
            simp only [sendRequest, hpm, hup, hh, hdns, hc, hw, earlyErr,
              Option.some.injEq] at hp
            exact hp.symm
          | ok =>
            simp only [sendRequest, hpm, hup, hh, hdns, hc, hw, runLoop,
              Option.some.injEq] at hp
            exact hp.symm

def envHttpsProbe : Env :=
  { urlParse := some ⟨"https", some "h", none⟩
    dns := .literal .ok
    sniff := ⟨.ok, .ok, .timeout⟩
    standard := stratConnErr
    permissive := stratConnErr
    legacyTls := stratConnErr }

set_option maxRecDepth 40000 in
/-- Witness for C10 at a concrete https environment with a transport failure
on every strategy. -/
theorem payloadIsolation_w :
    sendRequest "GET" "https://h/" "X-A: 1" "B1" envHttpsProbe =
      sendRequest "GET" "https://h/" "X-A: 1" "B2" envHttpsProbe ∧
    (("Standard", Method.GET, "https://h/") : String × Method × String).2.1 = Method.GET ∧
    (("Standard", Method.GET, "https://h/") : String × Method × String).2.2 = "https://h/" ∧
    "GET / HTTP/1.1\r\nHost: h\r\nX-A: 1\r\n\r\n" = sniffProbe "https" "h" "X-A: 1" := by
  have h := payloadIsolation "GET" "https://h/" "X-A: 1" "X-A: 1" "B1" "B2" envHttpsProbe
  refine ⟨h.1, ?_, ?_, ?_⟩
  · exact (h.2.2.1 Method.GET rfl ("Standard", Method.GET, "https://h/") (by decide)).1
  · exact (h.2.2.1 Method.GET rfl ("Standard", Method.GET, "https://h/") (by decide)).2
  · exact h.2.2.2 ⟨"https", some "h", none⟩ "h" "GET / HTTP/1.1\r\nHost: h\r\nX-A: 1\r\n\r\n"
      rfl rfl (by decide)

end Nancy
